import Mathlib

/-!
Shallow embedding of `scripts/fetch_posts.js` (HF legacy assets batch
fetcher) and verification of its specification.

The JavaScript source is translated definition by definition: pure
functions become Lean functions, the `main` orchestrator becomes an
explicit effect-trace function over an oracle `World` describing the
filesystem and the network, and thrown errors become `Except`/`Option`
values.  JavaScript strings are Lean `String`s, parsed JSON values are the
inductive `JSValue`, and `undefined` is `Option.none`.  String primitives
that Lean implements by well-founded recursion (`splitOn`, `trim`,
`startsWith`, `includes`) are re-modeled structurally on character lists so
that every definition evaluates by kernel reduction.
-/

namespace FetchPosts

/-- A forum post as requested from the API (`pid`, `uid`, `dateline`,
`message`, `subject`); only `uid` is semantically inspected. -/
structure Post where
  pid : Int
  uid : Int
  dateline : Int
  message : String
  subject : String
deriving DecidableEq, Repr

/-- Loop body of `selectContiguousFirstAuthorPosts`: push posts while
`p.uid === firstUid`, `break` at the first mismatch. -/
def selectLoop (firstUid : Int) : List Post → List Post
  | [] => []
  | p :: rest => if p.uid = firstUid then p :: selectLoop firstUid rest else []

/-- Source function `selectContiguousFirstAuthorPosts(posts)`: the empty
array for an empty input, otherwise the leading run of posts whose `uid`
equals the first post's `uid`. -/
def selectContiguousFirstAuthorPosts : List Post → List Post
  | [] => []
  | p0 :: rest => selectLoop p0.uid (p0 :: rest)

/-- Whitespace characters stripped by JavaScript `String.prototype.trim`
(ASCII portion; the registry file is ASCII). -/
def isJsSpace (c : Char) : Bool :=
  c = ' ' || c = '\t' || c = '\n' || c = '\r' || c = '\x0b' || c = '\x0c'

/-- Trim `isJsSpace` characters from both ends of a character list. -/
def trimChars (l : List Char) : List Char :=
  ((l.dropWhile isJsSpace).reverse.dropWhile isJsSpace).reverse

/-- Model of JavaScript `s.trim()` as applied at the end of
`parseCsvLineFirstN`. -/
def jsTrim (s : String) : String := ⟨trimChars s.data⟩

/-- Character loop of `parseCsvLineFirstN`: quote toggling, doubled quotes
inside a quoted field, and early exit once `fieldsToExtract` fields have
been collected; at the end of the line the in-progress field is pushed only
when fewer than `fieldsToExtract` fields were collected. -/
def csvLoop (fieldsToExtract : Nat) : List Char → String → Bool → List String → List String
  | [], current, _, fields =>
    if fields.length < fieldsToExtract then fields ++ [current] else fields
  | '"' :: '"' :: rest, current, true, fields =>
    csvLoop fieldsToExtract rest (current.push '"') true fields
  | '"' :: rest, current, inQuotes, fields =>
    csvLoop fieldsToExtract rest current (!inQuotes) fields
  | ch :: rest, current, inQuotes, fields =>
    if ch = ',' ∧ inQuotes = false then
      let fields2 := fields ++ [current]
      if fields2.length = fieldsToExtract then fields2
      else csvLoop fieldsToExtract rest "" inQuotes fields2
    else csvLoop fieldsToExtract rest (current.push ch) inQuotes fields

/-- Source function `parseCsvLineFirstN(line, fieldsToExtract)`: run the
character loop, keep at most `fieldsToExtract` items (`slice(0, n)`), and
trim each field (`.map((s) => s.trim())`). -/
def parseCsvLineFirstN (line : String) (fieldsToExtract : Nat) : List String :=
  ((csvLoop fieldsToExtract line.data "" false []).take fieldsToExtract).map jsTrim

/-- Split a character list at every occurrence of `sep` (the model of
JavaScript `String.prototype.split` with a one-character separator). -/
def splitOnCharList (sep : Char) : List Char → List (List Char)
  | [] => [[]]
  | c :: rest =>
    if c = sep then [] :: splitOnCharList sep rest
    else
      match splitOnCharList sep rest with
      | s :: ss => (c :: s) :: ss
      | [] => [[c]]

/-- Remove one trailing carriage return, so that splitting on a newline
models `raw.split(/\r?\n/)`. -/
def stripTrailingCR (l : List Char) : List Char :=
  match l.getLast? with
  | some '\r' => l.dropLast
  | _ => l

/-- Model of `raw.split(/\r?\n/)`. -/
def splitLines (raw : String) : List String :=
  (splitOnCharList '\n' raw.data).map (fun l => ⟨stripTrailingCR l⟩)

/-- One row produced by `readCsv`; JavaScript destructuring
`const [edition, link] = ...` makes a missing field `undefined` (`none`). -/
structure Row where
  edition : Option String
  link : Option String
deriving DecidableEq, Repr

/-- Source function `readCsv`, applied to the raw file content: split into
lines, drop empty lines, skip the header line, and extract the first two
fields of each remaining line. -/
def readCsv (raw : String) : List Row :=
  let lines := (splitLines raw).filter (fun l => l.length > 0)
  if lines.length = 0 then []
  else (lines.drop 1).map (fun l =>
    let fs := parseCsvLineFirstN l 2
    { edition := fs.get? 0, link := fs.get? 1 })

/-- Model of `/^\d+$/.test(s)`: non-empty and ASCII digits only. -/
def testDigits (s : String) : Bool :=
  !s.data.isEmpty && s.data.all Char.isDigit

/-- Source function `extractTidFromLink(link)`, parameterized by the WHATWG
URL parser (`new URL`); `parse link = none` models the constructor
throwing, which the `catch` turns into `null`.  A parsed URL is observed
only through `searchParams.get`, modeled as a function
`String → Option String`.  `!link` is true exactly for the empty string,
`!tid` for an absent (`none`) or empty parameter value.  The function is
total: no failure path is exposed to callers. -/
def extractTidFromLink (parse : String → Option (String → Option String))
    (link : String) : Option String :=
  if link = "" then none
  else
    match parse link with
    | none => none
    | some searchParams =>
      match searchParams "tid" with
      | none => none
      | some tid =>
        if tid = "" then none
        else if testDigits tid = false then none
        else some tid

/-- A concrete stand-in for the WHATWG URL parser used to witness C4. -/
def demoParse : String → Option (String → Option String) :=
  fun s =>
    if s = "https://hackforums.net/showthread.php?tid=42" then
      some (fun k => if k = "tid" then some "42" else none)
    else none

/-- A parsed JSON value (`JSON.parse` output).  `undefined` is represented
by `Option.none` at use sites, never as a `JSValue`. -/
inductive JSValue where
  | null
  | bool (b : Bool)
  | num (n : Int)
  | str (s : String)
  | arr (elems : List JSValue)
  | obj (fields : List (String × JSValue))

/-- JavaScript truthiness of a JSON value. -/
def truthy : JSValue → Bool
  | .null => false
  | .bool b => b
  | .num n => !(n == 0)
  | .str s => !(s == "")
  | .arr _ => true
  | .obj _ => true

/-- Property lookup on an object's field list (parsed JSON objects have
unique keys). -/
def lookupField : List (String × JSValue) → String → Option JSValue
  | [], _ => none
  | (k, v) :: rest, name => if k = name then some v else lookupField rest name

/-- JavaScript property access `v[name]`; `none` is `undefined`. -/
def getField : JSValue → String → Option JSValue
  | .obj fields, name => lookupField fields name
  | _, _ => none

/-- The value of `v.posts` when it is an array, `none` otherwise. -/
def postsArray (v : JSValue) : Option (List JSValue) :=
  match getField v "posts" with
  | some (.arr xs) => some xs
  | _ => none

/-- The two kinds of error thrown below `main`'s catch: the tagged
`RateLimitError` and a generic `Error`, each carrying its message. -/
inductive FetchErr where
  | rateLimit (message : String)
  | generic (message : String)

def errMessage : FetchErr → String
  | .rateLimit m => m
  | .generic m => m

/-- One HTTPS response as observed by `postJson`: the status code, the raw
body `data`, and the result of `JSON.parse(data)` when `data` is non-empty
(`none` models a `SyntaxError`, whose message is `parseErrMsg`). -/
structure HttpResult where
  status : Nat
  raw : String
  parsed : Option JSValue
  parseErrMsg : String

/-- Source function `postJson`, applied to the observed response: a 2xx
status parses `data || "{}"` and resolves with the JSON value, rejecting
with `Failed to parse JSON response: ...` when parsing throws; any other
status rejects with `HTTP <status>: <body or placeholder>`. -/
def postJson (h : HttpResult) : Except String JSValue :=
  if 200 ≤ h.status ∧ h.status < 300 then
    match (if h.raw = "" then some (JSValue.obj []) else h.parsed) with
    | some j => .ok j
    | none => .error ("Failed to parse JSON response: " ++ h.parseErrMsg)
  else
    .error ("HTTP " ++ toString h.status ++ ": "
        ++ (if h.raw = "" then "<no body>" else h.raw))

/-- Test `response && response.success === false &&
response.message === "MAX_HOURLY_CALLS_EXCEEDED"`. -/
def isRateLimitResponse (v : JSValue) : Bool :=
  truthy v
  && (match getField v "success" with
      | some (.bool false) => true
      | _ => false)
  && (match getField v "message" with
      | some (.str m) => m == "MAX_HOURLY_CALLS_EXCEEDED"
      | _ => false)

/-- Source function `fetchThreadPosts`, applied to the observed HTTP
response: a `postJson` rejection propagates as a generic error; a resolved
body shaped as the rate-limit signal throws `RateLimitError`; a body
without a `posts` array throws a generic shape error; otherwise the `posts`
array is returned. -/
def fetchThreadPosts (h : HttpResult) : Except FetchErr (List JSValue) :=
  match postJson h with
  | .error m => .error (.generic m)
  | .ok response =>
    if isRateLimitResponse response then
      .error (.rateLimit "MAX_HOURLY_CALLS_EXCEEDED")
    else if truthy response = false then
      .error (.generic "Unexpected API response shape (missing posts array)")
    else
      match postsArray response with
      | none => .error (.generic "Unexpected API response shape (missing posts array)")
      | some posts => .ok posts

/-- Outcome of one `fetchThreadPosts({tid, token})` call as seen by the
orchestrator; `ok` carries the decoded posts. -/
inductive FetchOutcome where
  | ok (posts : List Post)
  | fail (e : FetchErr)

/-- Boolean prefix test on character lists. -/
def isPrefixOfChars : List Char → List Char → Bool
  | [], _ => true
  | _ :: _, [] => false
  | a :: as, b :: bs => (a == b) && isPrefixOfChars as bs

def containsSub (pat : List Char) : List Char → Bool
  | [] => pat.isEmpty
  | c :: rest => isPrefixOfChars pat (c :: rest) || containsSub pat rest

/-- Model of JavaScript `s.includes(pat)`. -/
def jsIncludes (s pat : String) : Bool := containsSub pat.data s.data

/-- Halt test of `main`'s catch block:
`err.name === "RateLimitError" ||
String(err.message).includes("MAX_HOURLY_CALLS_EXCEEDED")`. -/
def errorHalts : FetchErr → Bool
  | .rateLimit _ => true
  | .generic msg => jsIncludes msg "MAX_HOURLY_CALLS_EXCEEDED"

/-- Per-edition filesystem: `none` = no `posts.json`; `some none` = file
exists but `JSON.parse` throws; `some (some v)` = file parses to `v`. -/
def CacheState : Type := Int → Option (Option JSValue)

/-- Completeness test of `main`:
`existing && Array.isArray(existing.posts) && existing.posts.length > 0`. -/
def cacheComplete (v : JSValue) : Bool :=
  truthy v
  && (match postsArray v with
      | some xs => decide (0 < xs.length)
      | none => false)

/-- Skip decision for one edition: the file exists, parses, and is
complete. -/
def shouldSkip (c : CacheState) (ed : Int) : Bool :=
  match c ed with
  | some (some v) => cacheComplete v
  | _ => false

def updateCache (c : CacheState) (ed : Int) (v : Option (Option JSValue)) :
    CacheState :=
  fun e => if e = ed then v else c e

/-- Serialization of a post back to JSON for `JSON.stringify(payload)`. -/
def postToJSValue (p : Post) : JSValue :=
  .obj [("pid", .num p.pid), ("uid", .num p.uid), ("dateline", .num p.dateline),
        ("message", .str p.message), ("subject", .str p.subject)]

/-- The `{ posts: contiguous }` payload written to `posts.json`. -/
def payloadFor (contiguous : List Post) : JSValue :=
  .obj [("posts", .arr (contiguous.map postToJSValue))]

/-- Observable side effects of the program, in order. -/
inductive Effect where
  | logErr (msg : String)
  | log (msg : String)
  | exitNonZero
  | readRegistry
  | fetchCall (tid : String)
  | writeFile (ed : Int) (payload : JSValue)

/-- Environment `main` runs against: the URL parser, the network (one
outcome per thread id), registry-file existence and content, and the
initial per-edition cache files. -/
structure World where
  urlParse : String → Option (String → Option String)
  fetch : String → FetchOutcome
  registryExists : Bool
  csvRaw : String
  cache0 : CacheState

structure StepResult where
  events : List Effect
  cache : CacheState
  halted : Bool

/-- One iteration of `main`'s `for` loop at edition `ed`: no-tid skip,
cached skip, or fetch with success / rate-limit halt / generic failure. -/
def stepEdition (w : World) (linkFor : String → String) (cache : CacheState)
    (ed : Int) : StepResult :=
  let editionKey := toString ed
  match extractTidFromLink w.urlParse (linkFor editionKey) with
  | none => ⟨[.log ("Edition " ++ editionKey ++ " - no tid found")], cache, false⟩
  | some tid =>
    if shouldSkip cache ed then
      ⟨[.log ("Edition " ++ editionKey ++ " - posts.json exists, skipping")],
       cache, false⟩
    else
      match w.fetch tid with
      | .ok posts =>
        let contiguous := selectContiguousFirstAuthorPosts posts
        let payload := payloadFor contiguous
        ⟨[.fetchCall tid, .writeFile ed payload,
          .log ("Edition " ++ editionKey ++ " - fetched "
              ++ toString contiguous.length ++ " post(s)")],
         updateCache cache ed (some (some payload)), false⟩
      | .fail e =>
        if errorHalts e then
          ⟨[.fetchCall tid,
            .log "Rate limit reached: MAX_HOURLY_CALLS_EXCEEDED. Stopping.",
            .exitNonZero],
           cache, true⟩
        else
          ⟨[.fetchCall tid,
            .log ("Edition " ++ editionKey ++ " - fetch failed: " ++ errMessage e)],
           cache, false⟩

/-- The loop of `main` over a list of editions, stopping when a step
halts. -/
def runEditions (w : World) (linkFor : String → String) :
    CacheState → List Int → List Effect × CacheState × Bool
  | cache, [] => ([], cache, false)
  | cache, ed :: rest =>
    let r := stepEdition w linkFor cache ed
    if r.halted then (r.events, r.cache, true)
    else
      let t := runEditions w linkFor r.cache rest
      (r.events ++ t.1, t.2.1, t.2.2)

/-- The range `for (let ed = startNum; ed <= endNum; ed++)` as a list. -/
def editionList (startNum endNum : Int) : List Int :=
  (List.range (endNum + 1 - startNum).toNat).map (fun i => startNum + i)

/-- A value stored in the `args` object: a string, or `true` for a flag
given without a value. -/
inductive ArgVal where
  | str (s : String)
  | flagTrue
deriving DecidableEq, Repr

/-- Test `part.startsWith("--")`. -/
def startsWithDashDash (s : String) : Bool :=
  match s.data with
  | '-' :: '-' :: _ => true
  | _ => false

/-- The `key.replace` call dropping one leading `--`. -/
def dropDashDash (s : String) : String :=
  match s.data with
  | '-' :: '-' :: rest => ⟨rest⟩
  | _ => s

/-- The call `part.split("=")`. -/
def splitOnEq (s : String) : List String :=
  (splitOnCharList '=' s.data).map (fun l => ⟨l⟩)

/-- Loop of `parseArgs` over `argv` from index 2: `--key=value`,
`--key value` (when the next token is truthy and not `--`-prefixed), or a
bare `--key` stored as `true`; non-`--` tokens are ignored.  A later
assignment to the same key overwrites an earlier one, which `argsGet`
realizes by preferring later entries. -/
def parseArgsLoop : List String → List (String × ArgVal)
  | [] => []
  | part :: rest =>
    if startsWithDashDash part then
      let parts := splitOnEq part
      let k := dropDashDash (parts.headD "")
      match parts.get? 1 with
      | some v => (k, .str v) :: parseArgsLoop rest
      | none =>
        match rest with
        | [] => [(k, .flagTrue)]
        | next :: rest2 =>
          if next ≠ "" ∧ startsWithDashDash next = false then
            (k, .str next) :: parseArgsLoop rest2
          else
            (k, .flagTrue) :: parseArgsLoop (next :: rest2)
    else parseArgsLoop rest

/-- Source function `parseArgs(process.argv)` (indices 0 and 1 are
skipped). -/
def parseArgs (argv : List String) : List (String × ArgVal) :=
  parseArgsLoop (argv.drop 2)

/-- Lookup `args[k]`, with later assignments overwriting earlier ones. -/
def argsGet (args : List (String × ArgVal)) (k : String) : Option ArgVal :=
  match args with
  | [] => none
  | (k2, v) :: rest =>
    match argsGet rest k with
    | some v2 => some v2
    | none => if k2 = k then some v else none

/-- JavaScript truthiness of `args[k]` (`undefined` and `""` are falsy,
`true` is truthy). -/
def truthyArg : Option ArgVal → Bool
  | none => false
  | some (.str s) => !(s == "")
  | some .flagTrue => true

/-- The expression `a || b` on argument values. -/
def jsOr (a b : Option ArgVal) : Option ArgVal :=
  if truthyArg a then a else b

/-- The conversion `Number(x)` for an argument value, parameterized by the
numeric parser `jsNumber` for strings (`none` models a non-finite result;
the editions that reach the loop are integral, so `Int` suffices);
`Number(true) = 1`. -/
def toNumberArg (jsNumber : String → Option Int) : Option ArgVal → Option Int
  | none => none
  | some .flagTrue => some 1
  | some (.str s) => jsNumber s

def usageMessage : String :=
  "Usage: node scripts/fetch_posts.js --start <StartEditionNumber> --end <EndEditionNumber> --token <APIToken>"

/-- The `editionToLink` map built in `main`: later rows with the same
edition overwrite earlier ones; rows whose edition is `undefined` are
skipped; a missing link is stored as `""`. -/
def buildEditionToLink (rows : List Row) : List (String × String) :=
  rows.foldl (fun m row =>
    match row.edition with
    | none => m
    | some ed => m ++ [(ed, row.link.getD "")]) []

/-- Lookup `editionToLink.get(key)`: the last value set for `key`. -/
def mapGet (m : List (String × String)) (key : String) : Option String :=
  ((m.filter (fun p => p.1 == key)).getLast?).map (fun p => p.2)

/-- The binding `const start = args.start || args.s`. -/
def mainStart (argv : List String) : Option ArgVal :=
  jsOr (argsGet (parseArgs argv) "start") (argsGet (parseArgs argv) "s")

/-- The binding `const end = args.end || args.e`. -/
def mainEnd (argv : List String) : Option ArgVal :=
  jsOr (argsGet (parseArgs argv) "end") (argsGet (parseArgs argv) "e")

/-- The binding `const token = args.token || args.t`. -/
def mainToken (argv : List String) : Option ArgVal :=
  jsOr (argsGet (parseArgs argv) "token") (argsGet (parseArgs argv) "t")

/-- Source function `main` up to and including the loop, as an effect
trace: argument validation (usage, numeric, order), registry existence,
registry read and map construction, then the per-edition loop. -/
def mainModel (jsNumber : String → Option Int) (w : World)
    (argv : List String) : List Effect :=
  let start := mainStart argv
  let endv := mainEnd argv
  let token := mainToken argv
  if truthyArg start = false ∨ truthyArg endv = false ∨ truthyArg token = false then
    [.logErr usageMessage, .exitNonZero]
  else
    match toNumberArg jsNumber start, toNumberArg jsNumber endv with
    | some startNum, some endNum =>
      if endNum < startNum then
        [.logErr "End must be >= Start", .exitNonZero]
      else if w.registryExists = false then
        [.logErr "Cannot find news/editions.csv", .exitNonZero]
      else
        let rows := readCsv w.csvRaw
        let m := buildEditionToLink rows
        let linkFor := fun key => (mapGet m key).getD ""
        Effect.readRegistry
          :: (runEditions w linkFor w.cache0 (editionList startNum endNum)).1
    | _, _ => [.logErr "Start and End must be numeric", .exitNonZero]

/-- A URL parser that finds thread id `t` in every non-empty link; used by
the concrete worlds below. -/
def constParse (t : String) : String → Option (String → Option String) :=
  fun s => if s = "" then none else some (fun k => if k = "tid" then some t else none)

/-- World whose every fetch is rate-limited (C2 witness). -/
def rlWorld : World :=
  ⟨constParse "7", fun _ => FetchOutcome.fail (FetchErr.rateLimit "MAX_HOURLY_CALLS_EXCEEDED"),
   true, "", fun _ => none⟩

def rlCache : CacheState := fun _ => none

/-- World for the C3 witness. -/
def skipWorld : World :=
  ⟨constParse "5", fun _ => FetchOutcome.ok [], true, "", fun _ => none⟩

/-- A cache with a complete `posts.json` at edition 14. -/
def fullCache : CacheState :=
  fun e => if e = 14 then
    some (some (JSValue.obj [("posts", JSValue.arr [JSValue.num 1])])) else none

/-- World whose every fetch fails generically with a message containing the
rate-limit marker (C6 counterexample). -/
def cexWorld : World :=
  ⟨constParse "9",
   fun _ => FetchOutcome.fail (FetchErr.generic "HTTP 500: MAX_HOURLY_CALLS_EXCEEDED"),
   true, "", fun _ => none⟩

/-- World whose every fetch fails generically (C6 witness). -/
def genWorld : World :=
  ⟨constParse "3", fun _ => FetchOutcome.fail (FetchErr.generic "HTTP 500: oops"),
   true, "", fun _ => none⟩

/-- World for the C7 witness. -/
def okWorld : World :=
  ⟨constParse "1", fun _ => FetchOutcome.ok [], true, "", fun _ => none⟩

/-- A cache with a complete `posts.json` at edition 5. -/
def doneCache : CacheState :=
  fun e => if e = 5 then
    some (some (JSValue.obj [("posts", JSValue.arr [JSValue.num 1])])) else none

/-- World for the C8 witness. -/
def doneWorld : World :=
  ⟨constParse "5", fun _ => FetchOutcome.ok [], true, "", doneCache⟩

/-- World whose fetches succeed with an empty posts array (C9 witness). -/
def emptyWorld : World :=
  ⟨constParse "8", fun _ => FetchOutcome.ok [], true, "", fun _ => none⟩

/-! ### Helper lemmas -/

lemma selectLoop_prefix_self (u : Int) (l : List Post) : selectLoop u l <+: l := by
  induction l with
  | nil => exact List.nil_prefix
  | cons p rest ih =>
    by_cases h : p.uid = u
    · obtain ⟨t, ht⟩ := ih
      exact ⟨t, by simp [selectLoop, h, ht]⟩
    · exact ⟨p :: rest, by simp [selectLoop, h]⟩

lemma selectLoop_uid (u : Int) (l : List Post) :
    ∀ q ∈ selectLoop u l, q.uid = u := by
  induction l with
  | nil => intro q hq; simp [selectLoop] at hq
  | cons p rest ih =>
    intro q hq
    by_cases h : p.uid = u
    · simp only [selectLoop, if_pos h, List.mem_cons] at hq
      rcases hq with rfl | hq
      · exact h
      · exact ih q hq
    · simp [selectLoop, h] at hq

lemma selectLoop_length_eq (u : Int) (l : List Post) (k : ℕ) (pk : Post)
    (hk : l.get? k = some pk) (hne : pk.uid ≠ u)
    (hbefore : ∀ j < k, ∀ pj : Post, l.get? j = some pj → pj.uid = u) :
    (selectLoop u l).length = k := by
  induction l generalizing k with
  | nil => simp at hk
  | cons p rest ih =>
    cases k with
    | zero =>
      rw [List.get?_cons_zero] at hk
      injection hk with hk
      subst hk
      simp [selectLoop, hne]
    | succ k2 =>
      have hp : p.uid = u := hbefore 0 (Nat.succ_pos _) p (by simp)
      rw [List.get?_cons_succ] at hk
      have hrest : (selectLoop u rest).length = k2 := by
        refine ih k2 hk ?_
        intro j hj pj hpj
        exact hbefore (j + 1) (Nat.succ_lt_succ hj) pj (by simpa using hpj)
      simp [selectLoop, hp, hrest]

lemma head?_trimChars (l : List Char) (c : Char)
    (h : (trimChars l).head? = some c) : isJsSpace c = false := by
  unfold trimChars at h
  set a := l.dropWhile isJsSpace with ha
  set b := a.reverse.dropWhile isJsSpace with hb
  rw [List.head?_reverse] at h
  have hbne : b ≠ [] := by
    intro hnil
    rw [hnil] at h
    simp at h
  obtain ⟨t, ht⟩ := List.dropWhile_suffix (l := a.reverse) isJsSpace
  have hlast : b.getLast? = a.reverse.getLast? := by
    rw [← ht, List.getLast?_append_of_ne_nil _ hbne]
  rw [hlast, List.getLast?_reverse] at h
  have hd := List.head?_dropWhile_not isJsSpace l
  rw [← ha, h] at hd
  simpa using hd

lemma getLast?_trimChars (l : List Char) (c : Char)
    (h : (trimChars l).getLast? = some c) : isJsSpace c = false := by
  unfold trimChars at h
  rw [List.getLast?_reverse] at h
  have hd := List.head?_dropWhile_not isJsSpace (l.dropWhile isJsSpace).reverse
  rw [h] at hd
  simpa using hd

lemma extractTid_eq_some_iff (parse : String → Option (String → Option String))
    (hparse : parse "" = none) (L t : String) :
    extractTidFromLink parse L = some t
    ↔ ∃ sp, parse L = some sp ∧ sp "tid" = some t ∧ testDigits t = true := by
  unfold extractTidFromLink
  by_cases hL : L = ""
  · simp [hL, hparse]
  · rw [if_neg hL]
    cases hp : parse L with
    | none => simp
    | some sp =>
      simp only [Option.some.injEq, exists_eq_left']
      cases htid : sp "tid" with
      | none => simp
      | some tid =>
        dsimp only []
        by_cases hemp : tid = ""
        · subst hemp
          rw [if_pos rfl]
          simp only [testDigits, false_iff, Bool.and_eq_true, Bool.not_eq_true']
          constructor
          · intro h; cases h
          · rintro ⟨ht, _⟩
            injection ht with ht
            subst ht
            simp [testDigits] at *
        · rw [if_neg hemp]
          cases hdig : testDigits tid with
          | false =>
            rw [if_pos rfl]
            constructor
            · intro h; cases h
            · rintro ⟨ht, hd⟩
              injection ht with ht
              rw [← ht] at hd
              rw [hdig] at hd
              cases hd
          | true =>
            rw [if_neg (by simp)]
            constructor
            · intro h
              refine ⟨h, ?_⟩
              injection h with h
              rw [← h]
              exact hdig
            · rintro ⟨ht, _⟩
              exact ht

lemma shouldSkip_iff (c : CacheState) (ed : Int) :
    shouldSkip c ed = true
    ↔ ∃ v, c ed = some (some v) ∧ cacheComplete v = true := by
  unfold shouldSkip
  cases hc : c ed with
  | none => simp
  | some o =>
    cases o with
    | none => simp
    | some v => simp

/-! ### Claim theorems -/

/-- C1: `selectContiguousFirstAuthorPosts(P)` is a prefix of `P`; every
element of the result has the `uid` of `P`'s first element; if `P` has an
element at index `k` whose `uid` differs from element 0's `uid` while all
elements before index `k` share element 0's `uid`, the result has length
exactly `k`; and the empty input yields the empty output. -/
theorem selectContiguous_spec (P : List Post) :
    (selectContiguousFirstAuthorPosts P <+: P)
    ∧ (∀ p0, P.head? = some p0 →
        ∀ q ∈ selectContiguousFirstAuthorPosts P, q.uid = p0.uid)
    ∧ (∀ (k : ℕ) (p0 pk : Post), P.head? = some p0 → P.get? k = some pk →
        pk.uid ≠ p0.uid →
        (∀ j < k, ∀ pj : Post, P.get? j = some pj → pj.uid = p0.uid) →
        (selectContiguousFirstAuthorPosts P).length = k)
    ∧ selectContiguousFirstAuthorPosts [] = [] := by
  refine ⟨?_, ?_, ?_, rfl⟩
  · cases P with
    | nil => exact List.nil_prefix
    | cons a rest => exact selectLoop_prefix_self a.uid (a :: rest)
  · intro p0 h0 q hq
    cases P with
    | nil => simp [selectContiguousFirstAuthorPosts] at hq
    | cons a rest =>
      have ha : a = p0 := by simpa using h0
      subst ha
      simp only [selectContiguousFirstAuthorPosts] at hq
      exact selectLoop_uid _ _ q hq
  · intro k p0 pk h0 hk hne hbefore
    cases P with
    | nil => simp at hk
    | cons a rest =>
      have ha : a = p0 := by simpa using h0
      subst ha
      simp only [selectContiguousFirstAuthorPosts]
      exact selectLoop_length_eq _ _ k pk hk hne hbefore

/-- Witness for C1 at the concrete input `[{uid:1}, {uid:1}, {uid:2}]`. -/
theorem selectContiguous_spec_witness :
    (selectContiguousFirstAuthorPosts
        [⟨1, 1, 0, "", ""⟩, ⟨2, 1, 0, "", ""⟩, ⟨3, 2, 0, "", ""⟩]).length = 2 := by
  refine (selectContiguous_spec
      [⟨1, 1, 0, "", ""⟩, ⟨2, 1, 0, "", ""⟩, ⟨3, 2, 0, "", ""⟩]).2.2.1
      2 ⟨1, 1, 0, "", ""⟩ ⟨3, 2, 0, "", ""⟩ rfl rfl (by decide) ?_
  intro j hj pj hpj
  interval_cases j <;> (injection hpj with h; rw [← h])

/-- C10: every field returned by `parseCsvLineFirstN` is trimmed: its first
and last characters (when present) are not JavaScript whitespace, so
edition identifiers and links never carry surrounding spaces. -/
theorem parseCsv_fields_trimmed (line : String) (n : ℕ) :
    ∀ s ∈ parseCsvLineFirstN line n,
      (∀ c, s.data.head? = some c → isJsSpace c = false)
      ∧ (∀ c, s.data.getLast? = some c → isJsSpace c = false) := by
  intro s hs
  simp only [parseCsvLineFirstN, List.mem_map] at hs
  obtain ⟨t, _, rfl⟩ := hs
  exact ⟨fun c hc => head?_trimChars t.data c hc,
         fun c hc => getLast?_trimChars t.data c hc⟩

/-- Witness for C10: the field parsed from `" a , b "` starts with a
non-space character. -/
theorem parseCsv_fields_trimmed_witness : isJsSpace 'a' = false :=
  (parseCsv_fields_trimmed " a , b " 2 "a" (by decide)).1 'a' (by decide)

/-- C4: for every link `L`, `extractTidFromLink` returns a string `t`
exactly when the URL parser succeeds on `L` and yields a `tid` query
parameter equal to `t` matching the digits regex (non-empty, ASCII digits);
in every other case (empty string, unparsable URL, missing `tid`,
non-numeric `tid`) it returns `none`.  It never throws: it is a total Lean
function.  The WHATWG parser is abstract; the hypothesis records that
`new URL("")` throws. -/
theorem extractTid_spec (parse : String → Option (String → Option String))
    (hparse : parse "" = none) (L : String) :
    (∀ t, extractTidFromLink parse L = some t
        ↔ ∃ sp, parse L = some sp ∧ sp "tid" = some t ∧ testDigits t = true)
    ∧ (extractTidFromLink parse L = none
        ↔ ¬ ∃ sp t, parse L = some sp ∧ sp "tid" = some t ∧ testDigits t = true) := by
  have h1 := fun t => extractTid_eq_some_iff parse hparse L t
  refine ⟨h1, ?_⟩
  constructor
  · intro hnone
    rintro ⟨sp, t, hsp, ht, hd⟩
    have hsome := (h1 t).mpr ⟨sp, hsp, ht, hd⟩
    rw [hnone] at hsome
    cases hsome
  · intro hn
    cases hx : extractTidFromLink parse L with
    | none => rfl
    | some t =>
      obtain ⟨sp, hsp, ht, hd⟩ := (h1 t).mp hx
      exact absurd ⟨sp, t, hsp, ht, hd⟩ hn

/-- Witness for C4 at a concrete link carrying `tid=42`. -/
theorem extractTid_spec_witness :
    extractTidFromLink demoParse "https://hackforums.net/showthread.php?tid=42"
      = some "42" :=
  ((extractTid_spec demoParse rfl
      "https://hackforums.net/showthread.php?tid=42").1 "42").mpr
    ⟨fun k => if k = "tid" then some "42" else none, rfl, rfl, by decide⟩

/-- C2: when the fetch for an edition fails with the rate-limit error, the
run of that edition and all later ones produces exactly the rate-limit
events (fetch call, terminating log, non-zero exit) and the halted flag;
the result does not depend on the remaining editions, so none of them is
ever looked up, fetched, or written. -/
theorem rateLimit_halts (w : World) (linkFor : String → String)
    (cache : CacheState) (ed : Int) (rest : List Int) (tid m : String)
    (htid : extractTidFromLink w.urlParse (linkFor (toString ed)) = some tid)
    (hskip : shouldSkip cache ed = false)
    (hfetch : w.fetch tid = FetchOutcome.fail (FetchErr.rateLimit m)) :
    runEditions w linkFor cache (ed :: rest)
      = ([Effect.fetchCall tid,
          Effect.log "Rate limit reached: MAX_HOURLY_CALLS_EXCEEDED. Stopping.",
          Effect.exitNonZero], cache, true) := by
  have hstep : stepEdition w linkFor cache ed
      = ⟨[Effect.fetchCall tid,
          Effect.log "Rate limit reached: MAX_HOURLY_CALLS_EXCEEDED. Stopping.",
          Effect.exitNonZero], cache, true⟩ := by
    simp [stepEdition, htid, hskip, hfetch, errorHalts]
  simp [runEditions, hstep]

/-- Witness for C2: edition 12 is rate-limited, edition 13 is never
attempted, and the trace ends with a non-zero exit. -/
theorem rateLimit_halts_witness :
    runEditions rlWorld (fun _ => "x?tid=7") rlCache [12, 13]
      = ([Effect.fetchCall "7",
          Effect.log "Rate limit reached: MAX_HOURLY_CALLS_EXCEEDED. Stopping.",
          Effect.exitNonZero], rlCache, true) :=
  rateLimit_halts rlWorld (fun _ => "x?tid=7") rlCache 12 [13] "7"
    "MAX_HOURLY_CALLS_EXCEEDED" rfl rfl rfl

/-- C3: for an edition with a valid tid, the orchestrator emits the
skipping log (and changes nothing) exactly when the cache file exists,
parses, and has a non-empty `posts` array; in every other cache state the
fetch is attempted, and on success the edition's cache entry is
overwritten with the new payload. -/
theorem cacheSkip_spec (w : World) (linkFor : String → String)
    (cache : CacheState) (ed : Int) (tid : String)
    (htid : extractTidFromLink w.urlParse (linkFor (toString ed)) = some tid) :
    (shouldSkip cache ed = true
      ↔ ∃ v, cache ed = some (some v) ∧ cacheComplete v = true)
    ∧ ((stepEdition w linkFor cache ed).events
        = [Effect.log ("Edition " ++ toString ed ++ " - posts.json exists, skipping")]
      ↔ shouldSkip cache ed = true)
    ∧ (shouldSkip cache ed = false →
        Effect.fetchCall tid ∈ (stepEdition w linkFor cache ed).events)
    ∧ (∀ posts, shouldSkip cache ed = false → w.fetch tid = FetchOutcome.ok posts →
        (stepEdition w linkFor cache ed).cache ed
          = some (some (payloadFor (selectContiguousFirstAuthorPosts posts)))) := by
  refine ⟨shouldSkip_iff cache ed, ?_, ?_, ?_⟩
  · cases hsk : shouldSkip cache ed
    · simp only [Bool.false_eq_true, iff_false]
      cases hf : w.fetch tid with
      | ok posts => simp [stepEdition, htid, hsk, hf]
      | fail e =>
        cases he : errorHalts e <;> simp [stepEdition, htid, hsk, hf, he]
    · simp [stepEdition, htid, hsk]
  · intro hsk
    cases hf : w.fetch tid with
    | ok posts => simp [stepEdition, htid, hsk, hf]
    | fail e =>
      cases he : errorHalts e <;> simp [stepEdition, htid, hsk, hf, he]
  · intro posts hsk hf
    simp [stepEdition, htid, hsk, hf, updateCache]

/-- Witness for C3: a cache holding `{"posts":[1]}` at edition 14 is
skipped. -/
theorem cacheSkip_spec_witness : shouldSkip fullCache 14 = true :=
  (cacheSkip_spec skipWorld (fun _ => "x?tid=5") fullCache 14 "5" rfl).1.mpr
    ⟨JSValue.obj [("posts", JSValue.arr [JSValue.num 1])], rfl, rfl⟩

/-- C6 counterexample: the claim says every non-rate-limit fetch failure,
including any non-2xx status, lets the batch advance.  A 500 response whose
body contains `MAX_HOURLY_CALLS_EXCEEDED` is a generic fetch failure, yet
the catch block's substring test halts the batch: edition 2 is never
attempted and the process exits non-zero. -/
theorem genericFailure_cex :
    fetchThreadPosts ⟨500, "MAX_HOURLY_CALLS_EXCEEDED", none, ""⟩
      = Except.error (FetchErr.generic "HTTP 500: MAX_HOURLY_CALLS_EXCEEDED")
    ∧ (runEditions cexWorld (fun _ => "x?tid=9") (fun _ => none) [1, 2]).1
      = [Effect.fetchCall "9",
         Effect.log "Rate limit reached: MAX_HOURLY_CALLS_EXCEEDED. Stopping.",
         Effect.exitNonZero]
    ∧ (runEditions cexWorld (fun _ => "x?tid=9") (fun _ => none) [1, 2]).2.2 = true :=
  ⟨rfl, rfl, rfl⟩

/-- C6 (amended): any non-2xx status (message carrying status and raw
body), a non-JSON body on a 2xx status, and a 2xx JSON body without a
`posts` array are all generic fetch failures; a generic failure whose
message does not contain `MAX_HOURLY_CALLS_EXCEEDED` is logged for that
edition and the batch advances to the next edition (a message containing
the marker triggers the rate-limit halt path instead). -/
theorem genericFailure_spec :
    (∀ h : HttpResult, ¬(200 ≤ h.status ∧ h.status < 300) →
        fetchThreadPosts h = Except.error (FetchErr.generic
          ("HTTP " ++ toString h.status ++ ": "
            ++ (if h.raw = "" then "<no body>" else h.raw))))
    ∧ (∀ h : HttpResult, (200 ≤ h.status ∧ h.status < 300) → h.raw ≠ "" →
        h.parsed = none →
        fetchThreadPosts h = Except.error (FetchErr.generic
          ("Failed to parse JSON response: " ++ h.parseErrMsg)))
    ∧ (∀ h : HttpResult, (200 ≤ h.status ∧ h.status < 300) → ∀ j : JSValue,
        (if h.raw = "" then some (JSValue.obj []) else h.parsed) = some j →
        isRateLimitResponse j = false →
        (truthy j = false ∨ postsArray j = none) →
        fetchThreadPosts h = Except.error (FetchErr.generic
          "Unexpected API response shape (missing posts array)"))
    ∧ (∀ (w : World) (linkFor : String → String) (cache : CacheState)
        (ed : Int) (rest : List Int) (tid m : String),
        extractTidFromLink w.urlParse (linkFor (toString ed)) = some tid →
        shouldSkip cache ed = false →
        w.fetch tid = FetchOutcome.fail (FetchErr.generic m) →
        jsIncludes m "MAX_HOURLY_CALLS_EXCEEDED" = false →
        runEditions w linkFor cache (ed :: rest)
          = ([Effect.fetchCall tid,
              Effect.log ("Edition " ++ toString ed ++ " - fetch failed: " ++ m)]
                ++ (runEditions w linkFor cache rest).1,
             (runEditions w linkFor cache rest).2.1,
             (runEditions w linkFor cache rest).2.2)) := by
  refine ⟨?_, ?_, ?_, ?_⟩
  · intro h hbad
    simp [fetchThreadPosts, postJson, hbad]
  · intro h h2xx hraw hparsed
    simp [fetchThreadPosts, postJson, h2xx, hraw, hparsed]
  · intro h h2xx j hj hrl hor
    rcases hor with htf | hpn
    · simp [fetchThreadPosts, postJson, h2xx, hj, hrl, htf]
    · cases htr : truthy j
      · simp [fetchThreadPosts, postJson, h2xx, hj, hrl, htr]
      · simp [fetchThreadPosts, postJson, h2xx, hj, hrl, htr, hpn]
  · intro w linkFor cache ed rest tid m htid hskip hfetch hincl
    have hstep : stepEdition w linkFor cache ed
        = ⟨[Effect.fetchCall tid,
            Effect.log ("Edition " ++ toString ed ++ " - fetch failed: " ++ m)],
           cache, false⟩ := by
      simp [stepEdition, htid, hskip, hfetch, errorHalts, hincl, errMessage]
    simp [runEditions, hstep]

/-- Witness for the amended C6: a failure with message `HTTP 500: oops` at
edition 1 advances the batch to edition 2. -/
theorem genericFailure_spec_witness :
    runEditions genWorld (fun _ => "x?tid=3") (fun _ => none) [1, 2]
      = ([Effect.fetchCall "3",
          Effect.log ("Edition " ++ toString (1 : Int) ++ " - fetch failed: HTTP 500: oops")]
          ++ (runEditions genWorld (fun _ => "x?tid=3") (fun _ => none) [2]).1,
         (runEditions genWorld (fun _ => "x?tid=3") (fun _ => none) [2]).2.1,
         (runEditions genWorld (fun _ => "x?tid=3") (fun _ => none) [2]).2.2) :=
  genericFailure_spec.2.2.2 genWorld (fun _ => "x?tid=3") (fun _ => none) 1 [2] "3"
    "HTTP 500: oops" rfl rfl rfl rfl

/-- C7: the three required options are each supplied by a long or a short
flag name; a missing option produces the usage message and a non-zero exit,
a non-numeric start or end produces the numeric message and a non-zero
exit, and `end < start` produces the order message and a non-zero exit; all
three error traces consist of the error log and the exit only — no registry
read, fetch, or file write occurs. -/
theorem argValidation_spec (jsNumber : String → Option Int) (w : World)
    (argv : List String) :
    (∀ v : String, v ≠ "" → startsWithDashDash v = false →
        argsGet (parseArgs ["node", "script", "--start", v]) "start" = some (ArgVal.str v)
        ∧ argsGet (parseArgs ["node", "script", "--s", v]) "s" = some (ArgVal.str v)
        ∧ argsGet (parseArgs ["node", "script", "--end", v]) "end" = some (ArgVal.str v)
        ∧ argsGet (parseArgs ["node", "script", "--e", v]) "e" = some (ArgVal.str v)
        ∧ argsGet (parseArgs ["node", "script", "--token", v]) "token" = some (ArgVal.str v)
        ∧ argsGet (parseArgs ["node", "script", "--t", v]) "t" = some (ArgVal.str v))
    ∧ ((truthyArg (mainStart argv) = false ∨ truthyArg (mainEnd argv) = false
          ∨ truthyArg (mainToken argv) = false) →
        mainModel jsNumber w argv = [Effect.logErr usageMessage, Effect.exitNonZero])
    ∧ (truthyArg (mainStart argv) = true → truthyArg (mainEnd argv) = true →
        truthyArg (mainToken argv) = true →
        (toNumberArg jsNumber (mainStart argv) = none
          ∨ toNumberArg jsNumber (mainEnd argv) = none) →
        mainModel jsNumber w argv
          = [Effect.logErr "Start and End must be numeric", Effect.exitNonZero])
    ∧ (∀ startNum endNum : Int,
        truthyArg (mainStart argv) = true → truthyArg (mainEnd argv) = true →
        truthyArg (mainToken argv) = true →
        toNumberArg jsNumber (mainStart argv) = some startNum →
        toNumberArg jsNumber (mainEnd argv) = some endNum →
        endNum < startNum →
        mainModel jsNumber w argv
          = [Effect.logErr "End must be >= Start", Effect.exitNonZero]) := by
  refine ⟨?_, ?_, ?_, ?_⟩
  · intro v hv hdd
    simp only [startsWithDashDash] at hdd
    refine ⟨?_, ?_, ?_, ?_, ?_, ?_⟩ <;>
      simp [parseArgs, parseArgsLoop, splitOnEq, splitOnCharList, startsWithDashDash,
        dropDashDash, argsGet, hv, hdd]
  · intro hbad
    simp only [mainModel]
    rw [if_pos hbad]
  · intro hs he ht hnum
    simp only [mainModel]
    rw [if_neg (by simp [hs, he, ht])]
    rcases hnum with hn | hn
    · cases hx : toNumberArg jsNumber (mainEnd argv) <;> simp [hn, hx]
    · cases hx : toNumberArg jsNumber (mainStart argv) <;> simp [hn, hx]
  · intro startNum endNum hs he ht hsn hen hlt
    simp only [mainModel]
    rw [if_neg (by simp [hs, he, ht])]
    simp [hsn, hen, hlt]

/-- Witness for C7: invoking with no options at all yields the usage error
trace. -/
theorem argValidation_spec_witness :
    mainModel (fun _ => none) okWorld ["node", "script"]
      = [Effect.logErr usageMessage, Effect.exitNonZero] :=
  (argValidation_spec (fun _ => none) okWorld ["node", "script"]).2.1 (Or.inl rfl)

/-- C8: if at the start of a run every edition in the range either has no
extractable tid or a cache file that parses with a non-empty `posts` array,
the run performs zero fetch calls, leaves the cache untouched, and does not
halt. -/
theorem secondRun_noFetch (w : World) (linkFor : String → String)
    (cache : CacheState) (eds : List Int)
    (h : ∀ ed ∈ eds,
        extractTidFromLink w.urlParse (linkFor (toString ed)) = none
        ∨ ∃ v, cache ed = some (some v) ∧ cacheComplete v = true) :
    (∀ tid, Effect.fetchCall tid ∉ (runEditions w linkFor cache eds).1)
    ∧ (runEditions w linkFor cache eds).2.1 = cache
    ∧ (runEditions w linkFor cache eds).2.2 = false := by
  induction eds with
  | nil => exact ⟨by simp [runEditions], rfl, rfl⟩
  | cons ed rest ih =>
    obtain ⟨ih1, ih2, ih3⟩ := ih (fun e he => h e (by simp [he]))
    have hstep : ∃ msg, stepEdition w linkFor cache ed
        = ⟨[Effect.log msg], cache, false⟩ := by
      rcases h ed (by simp) with htid | hcompl
      · exact ⟨"Edition " ++ toString ed ++ " - no tid found",
          by simp [stepEdition, htid]⟩
      · have hsk : shouldSkip cache ed = true := (shouldSkip_iff cache ed).mpr hcompl
        cases hx : extractTidFromLink w.urlParse (linkFor (toString ed)) with
        | none => exact ⟨"Edition " ++ toString ed ++ " - no tid found",
            by simp [stepEdition, hx]⟩
        | some tid => exact ⟨"Edition " ++ toString ed ++ " - posts.json exists, skipping",
            by simp [stepEdition, hx, hsk]⟩
    obtain ⟨msg, hstep⟩ := hstep
    refine ⟨?_, ?_, ?_⟩
    · intro tid
      simp [runEditions, hstep, ih1]
    · simp [runEditions, hstep, ih2]
    · simp [runEditions, hstep, ih3]

/-- Witness for C8: a run over edition 5, whose cache is complete, performs
no fetch call. -/
theorem secondRun_noFetch_witness :
    Effect.fetchCall "5" ∉ (runEditions doneWorld (fun _ => "x?tid=5") doneCache [5]).1 :=
  (secondRun_noFetch doneWorld (fun _ => "x?tid=5") doneCache [5]
    (by
      intro e he
      simp at he
      subst he
      exact Or.inr ⟨JSValue.obj [("posts", JSValue.arr [JSValue.num 1])], rfl, rfl⟩)).1 "5"

/-- C9: when a fetch succeeds but the contiguous selection is empty, the
orchestrator still writes `{"posts": []}` into the edition's cache; that
payload never satisfies the completeness check, so any later run whose
cache holds it fetches this edition again. -/
theorem emptySelection_refetch (w : World) (linkFor : String → String)
    (cache : CacheState) (ed : Int) (tid : String) (posts : List Post)
    (htid : extractTidFromLink w.urlParse (linkFor (toString ed)) = some tid)
    (hskip : shouldSkip cache ed = false)
    (hfetch : w.fetch tid = FetchOutcome.ok posts)
    (hsel : selectContiguousFirstAuthorPosts posts = []) :
    (stepEdition w linkFor cache ed).cache ed = some (some (payloadFor []))
    ∧ Effect.writeFile ed (payloadFor []) ∈ (stepEdition w linkFor cache ed).events
    ∧ cacheComplete (payloadFor []) = false
    ∧ (∀ c2 : CacheState, c2 ed = some (some (payloadFor [])) →
        shouldSkip c2 ed = false)
    ∧ Effect.fetchCall tid
        ∈ (stepEdition w linkFor (stepEdition w linkFor cache ed).cache ed).events := by
  have hnew : (stepEdition w linkFor cache ed).cache ed = some (some (payloadFor [])) := by
    simp [stepEdition, htid, hskip, hfetch, hsel, updateCache]
  have hincompl : ∀ c2 : CacheState, c2 ed = some (some (payloadFor [])) →
      shouldSkip c2 ed = false := by
    intro c2 h2
    simp [shouldSkip, h2]
    rfl
  refine ⟨hnew, ?_, rfl, hincompl, ?_⟩
  · simp [stepEdition, htid, hskip, hfetch, hsel]
  · have hsk2 : shouldSkip (stepEdition w linkFor cache ed).cache ed = false :=
      hincompl _ hnew
    set c2 := (stepEdition w linkFor cache ed).cache with hc2
    simp [stepEdition, htid, hsk2, hfetch]

/-- Witness for C9: an empty fetch result at edition 6 leaves an incomplete
cache file. -/
theorem emptySelection_refetch_witness : cacheComplete (payloadFor []) = false :=
  (emptySelection_refetch emptyWorld (fun _ => "x?tid=8") (fun _ => none) 6 "8" []
    rfl rfl rfl rfl).2.2.1

end FetchPosts
